import Mathlib

/-!
Verification development for `arxiv_assessor.py` (noahvandal/arxiv_analyzer).

Python strings are modelled as `List Char`; `datetime` values produced by
`datetime.strptime(_, '%a, %d %b %Y')` are modelled as `PyDate` (the time
component is always midnight, so equality of such datetimes is equality of
the calendar date).  A propagating Python exception (`ValueError` from
`strptime` / `str.rindex`) is modelled by `PyResult.raise`.

The functions below are translated from the source file `arxiv_assessor.py`:
character classes and the matcher model the regex
`\w+,\s+\d+\s+\w+\s+\d{4}` used at lines 45/50/62/64 (ASCII ranges: the
inputs in question are ASCII date headers), `pyStrptimeDate` models CPython
`_strptime` for the fixed format `'%a, %d %b %Y'`, and the page walker /
extractor / summarizer / report-wrap definitions model the corresponding
lines of `get_daily_papers`, `summarize_pdf`, `summarize_text` and `main`.
-/

/-- ASCII digit class, regex `\d`. -/
def isDigitChar (c : Char) : Bool := '0' ≤ c && c ≤ '9'

/-- ASCII word class, regex `\w`: letters, digits, underscore. -/
def isWordChar (c : Char) : Bool :=
  ('a' ≤ c && c ≤ 'z') || ('A' ≤ c && c ≤ 'Z') || isDigitChar c || c = '_'

/-- ASCII whitespace class, regex `\s` / `str.isspace`. -/
def isSpaceChar (c : Char) : Bool :=
  c = ' ' || c = '\t' || c = '\n' || c = '\x0d' || c = '\x0b' || c = '\x0c'

/-- Python `s.split(sep)` for a one-character separator: empty parts are kept,
`''.split(sep) = ['']`. -/
def pySplitChar (sep : Char) : List Char → List (List Char)
  | [] => [[]]
  | c :: r =>
    let rest := pySplitChar sep r
    if c = sep then [] :: rest
    else
      match rest with
      | g :: gs => (c :: g) :: gs
      | [] => [[c]]

/-- Python `s.strip()`: remove leading and trailing whitespace. -/
def pyStrip (cs : List Char) : List Char :=
  ((cs.dropWhile isSpaceChar).reverse.dropWhile isSpaceChar).reverse

/-- Python `s.rindex(c)` restricted to a single-character needle: the highest
index at which `c` occurs, `none` when absent (where `str.rindex` raises
`ValueError`). -/
def pyRindex (c : Char) : List Char → Option Nat
  | [] => none
  | a :: l =>
    match pyRindex c l with
    | some i => some (i + 1)
    | none => if a = c then some 0 else none

/-- Attempt to match the regex `\w+,\s+\d+\s+\w+\s+\d{4}` at the head of the
input, returning the matched text.  For this pattern each `X+` is followed
by a character class disjoint from `X`, so greedy matching with no
backtracking (maximal runs) coincides with Python `re` semantics; `\d{4}`
takes the first four characters after the last whitespace run and requires
them all to be digits (a fifth digit may follow unconsumed, as in `re`). -/
def matchDateAt (cs : List Char) : Option (List Char) :=
  let w1 := cs.takeWhile isWordChar
  let r1 := cs.dropWhile isWordChar
  if w1.isEmpty then none else
  match r1 with
  | ',' :: r2 =>
    let s1 := r2.takeWhile isSpaceChar
    let r3 := r2.dropWhile isSpaceChar
    if s1.isEmpty then none else
    let d1 := r3.takeWhile isDigitChar
    let r4 := r3.dropWhile isDigitChar
    if d1.isEmpty then none else
    let s2 := r4.takeWhile isSpaceChar
    let r5 := r4.dropWhile isSpaceChar
    if s2.isEmpty then none else
    let w2 := r5.takeWhile isWordChar
    let r6 := r5.dropWhile isWordChar
    if w2.isEmpty then none else
    let s3 := r6.takeWhile isSpaceChar
    let r7 := r6.dropWhile isSpaceChar
    if s3.isEmpty then none else
    let y := r7.take 4
    if y.length = 4 && y.all isDigitChar then
      some (w1 ++ ',' :: (s1 ++ d1 ++ s2 ++ w2 ++ s3 ++ y))
    else none
  | _ => none

/-- Python `re.search(r'\w+,\s+\d+\s+\w+\s+\d{4}', s)`: try every start
position left to right (leftmost match), returning the matched text
(= `group(1)` in the source, whose pattern wraps the whole regex in one
group). -/
def reSearchDate : List Char → Option (List Char)
  | [] => none
  | c :: rest =>
    match matchDateAt (c :: rest) with
    | some m => some m
    | none => reSearchDate rest

/-- Case-insensitive prefix match of a lowercase pattern against the input;
returns the input remainder on success.  Models one alternative of the
IGNORECASE alternations CPython `_strptime` compiles for `%a` / `%b`. -/
def ciPrefixMatch : List Char → List Char → Option (List Char)
  | [], rest => some rest
  | _ :: _, [] => none
  | p :: ps, c :: cs => if c.toLower = p then ciPrefixMatch ps cs else none

/-- First pattern in the list matching as a (case-insensitive) prefix, with
its index.  The abbreviation lists below are pairwise non-prefix-compatible,
so at most one alternative can match, as in the `_strptime` regex. -/
def matchOneOf : List (List Char) → List Char → Option (Nat × List Char)
  | [], _ => none
  | p :: ps, cs =>
    match ciPrefixMatch p cs with
    | some rest => some (0, rest)
    | none =>
      match matchOneOf ps cs with
      | some (i, rest) => some (i + 1, rest)
      | none => none

/-- Abbreviated weekday names recognised by `%a` (C locale); the parsed
weekday is discarded by `strptime` when a full date is present, so the index
is unused. -/
def weekdayAbbrevs : List (List Char) :=
  ["mon".toList, "tue".toList, "wed".toList, "thu".toList,
   "fri".toList, "sat".toList, "sun".toList]

/-- Abbreviated month names recognised by `%b` (C locale), in month order:
index + 1 is the month number. -/
def monthAbbrevs : List (List Char) :=
  ["jan".toList, "feb".toList, "mar".toList, "apr".toList,
   "may".toList, "jun".toList, "jul".toList, "aug".toList,
   "sep".toList, "oct".toList, "nov".toList, "dec".toList]

/-- CPython `_strptime` day field `%d`: regex `3[01]|[12]\d|0[1-9]|[1-9]`,
alternatives tried in order.  When a two-character alternative matches but
the continuation fails, retrying a shorter alternative leaves a digit in
front of the following `\s+`, which also fails, so committing to the first
matching alternative coincides with the backtracking regex. -/
def parseDayAlt : List Char → Option (Nat × List Char)
  | '3' :: '0' :: r => some (30, r)
  | '3' :: '1' :: r => some (31, r)
  | c1 :: c2 :: r =>
    if (c1 = '1' || c1 = '2') && isDigitChar c2 then
      some ((c1.toNat - '0'.toNat) * 10 + (c2.toNat - '0'.toNat), r)
    else if c1 = '0' && ('1' ≤ c2 && c2 ≤ '9') then
      some (c2.toNat - '0'.toNat, r)
    else if '1' ≤ c1 && c1 ≤ '9' then
      some (c1.toNat - '0'.toNat, c2 :: r)
    else none
  | [c] => if '1' ≤ c && c ≤ '9' then some (c.toNat - '0'.toNat, []) else none
  | [] => none

/-- Gregorian leap year, as in `datetime`. -/
def isLeapYear (y : Nat) : Bool := (y % 4 = 0 && y % 100 ≠ 0) || y % 400 = 0

/-- Days in a month, as validated by the `datetime` constructor. -/
def daysInMonth (y m : Nat) : Nat :=
  if m = 2 then (if isLeapYear y then 29 else 28)
  else if m = 4 || m = 6 || m = 9 || m = 11 then 30
  else 31

/-- Result of `datetime.strptime(_, '%a, %d %b %Y')`: year, month, day
(the time component is always midnight). -/
structure PyDate where
  year : Nat
  month : Nat
  day : Nat
deriving DecidableEq, Repr

/-- Model of `datetime.strptime(cs, '%a, %d %b %Y')`, returning `none` where CPython
raises `ValueError`: the compiled pattern is
`(?P<a>abbrev-weekday),\s+(?P<d>3[01]|[12]\d|0[1-9]|[1-9])\s+(?P<b>abbrev-month)\s+(?P<Y>\d\d\d\d)`
with IGNORECASE, anchored at the start, with any unconverted trailing data
an error, followed by `datetime` constructor validation of the calendar
date (`MINYEAR = 1`; day checked against the month length). -/
def pyStrptimeDate (cs : List Char) : Option PyDate :=
  match matchOneOf weekdayAbbrevs cs with
  | none => none
  | some (_, r1) =>
    match r1 with
    | ',' :: r2 =>
      let s1 := r2.takeWhile isSpaceChar
      let r3 := r2.dropWhile isSpaceChar
      if s1.isEmpty then none else
      match parseDayAlt r3 with
      | none => none
      | some (d, r4) =>
        let s2 := r4.takeWhile isSpaceChar
        let r5 := r4.dropWhile isSpaceChar
        if s2.isEmpty then none else
        match matchOneOf monthAbbrevs r5 with
        | none => none
        | some (mIdx, r6) =>
          let s3 := r6.takeWhile isSpaceChar
          let r7 := r6.dropWhile isSpaceChar
          if s3.isEmpty then none else
          match r7 with
          | [y1, y2, y3, y4] =>
            if (isDigitChar y1 && isDigitChar y2 && isDigitChar y3 && isDigitChar y4) then
              let y := (y1.toNat - '0'.toNat) * 1000 + (y2.toNat - '0'.toNat) * 100 +
                       (y3.toNat - '0'.toNat) * 10 + (y4.toNat - '0'.toNat)
              let m := mIdx + 1
              if 1 ≤ y && d ≤ daysInMonth y m then some ⟨y, m, d⟩ else none
            else none
          | _ => none
    | _ => none

/-- Outcome of a fallible Python computation: a normal return value, or a
propagating exception (`ValueError` here). -/
inductive PyResult (α : Type) where
  | ok (val : α)
  | raise
deriving DecidableEq, Repr

/-- A paper record as built at lines 80-83 of `get_daily_papers`. -/
structure Paper where
  pdf_url : List Char
  paper_id : List Char
deriving DecidableEq, Repr

/-- The literal origin prefixed to the href at line 81. -/
def arxivOrigin : List Char := "https://arxiv.org".toList

/-- Lines 80-83: the record built from a found link's `href`:
`pdf_url = f"https://arxiv.org{href}"`, `paper_id = href.split('/')[-1]`
(`split` on a nonempty string always yields a nonempty list, so `[-1]` is
its last element). -/
def mkPaper (href : List Char) : Paper :=
  { pdf_url := arxivOrigin ++ href
    paper_id := (pySplitChar '/' href).getLastD [] }

/-- A listing page, as seen through the BeautifulSoup queries the code
performs.  `h3s` holds the `.string` of each `h3` element in document
order (an `h3` with nested markup has `.string = None` and can never match
the `string=` filter, so it is omitted).  `dl` is the first `dl` element
(`none` when the page has no `dl`); each `dt` inside it is represented by
the href of the first `a[title="Download PDF"]` anchor *within that dt*
(`none` when the dt contains no such anchor).  On arXiv listing markup
every Download-PDF anchor lives inside a `dt`, so `dt.find_next(...)`,
which scans forward in document order, resolves to the first represented
anchor at or after that `dt`. -/
structure ListingPage where
  h3s : List (List Char)
  dl : Option (List (Option (List Char)))
deriving DecidableEq, Repr

/-- A fetch beyond the provided pages: no `h3` headers, no `dl`. -/
def emptyPage : ListingPage := { h3s := [], dl := none }

/-- Lines 77-83: for each `dt`, `dt.find_next('a', title='Download PDF')`
is the first Download-PDF anchor at or after that `dt` in document order
(`List.findSome? id` over the remaining dts); when found a record is
appended, otherwise the entry is skipped. -/
def extractPapers : List (Option (List Char)) → List Paper
  | [] => []
  | d :: rest =>
    match List.findSome? id (d :: rest) with
    | some href => mkPaper href :: extractPapers rest
    | none => extractPapers rest

/-- What the date-header logic of a page amounts to (lines 62-69):
`absent` — no `h3` whose string contains a match of the date regex (or,
unreachably given the filter, `re.search` fails on the found header);
`malformed` — a header matched the regex but `strptime` raises
`ValueError`; `parsed d` — the header parsed to the date `d`. -/
inductive HeaderInfo where
  | absent
  | malformed
  | parsed (d : PyDate)
deriving DecidableEq, Repr

/-- Lines 62-66: `soup.find('h3', string=re.compile(...))` is the first
`h3` whose string the regex matches; then `re.search` on its text and
`datetime.strptime(match.group(1).strip(), '%a, %d %b %Y')`. -/
def headerInfo (p : ListingPage) : HeaderInfo :=
  match p.h3s.find? (fun s => (reSearchDate s).isSome) with
  | none => .absent
  | some h =>
    match reSearchDate h with
    | none => .absent
    | some m =>
      match pyStrptimeDate (pyStrip m) with
      | none => .malformed
      | some d => .parsed d

/-- The papers a page contributes (`new_papers` at lines 76-83): empty when
the page has no `dl`. -/
def pagePapers (p : ListingPage) : List Paper :=
  match p.dl with
  | none => []
  | some dts => extractPapers dts

/-- What one loop iteration does with a page. -/
inductive StepRes where
  | stop
  | raiseVE
  | cont (new : List Paper)
deriving DecidableEq, Repr

/-- Lines 72-90, the paper half of an iteration: no `dl` → `break`;
`new_papers` empty → `break`; otherwise extend the accumulator and
continue. -/
def pagePapersStep (p : ListingPage) : StepRes :=
  match p.dl with
  | none => .stop
  | some dts =>
    let new := extractPapers dts
    if new = [] then .stop else .cont new

/-- Lines 62-90, one full iteration of the `while True` loop: the date
header is examined first (a parse failure raises, a different date breaks),
then the papers are parsed. -/
def pageStep (today : PyDate) (p : ListingPage) : StepRes :=
  match headerInfo p with
  | .malformed => .raiseVE
  | .parsed d => if d = today then pagePapersStep p else .stop
  | .absent => pagePapersStep p

/-- Lines 56-91: the `while True` loop from the current page on.  The model
takes the finite list of distinct listing pages the server would serve at
offsets 0, 25, 50, ...; a fetch past the end yields `emptyPage`, for which
`pageStep` is `.stop` (no `dl` → `break`), which is what the `[]` case
returns directly. -/
def walkSuffix (today : PyDate) : List ListingPage → PyResult (List Paper)
  | [] => .ok []
  | p :: rest =>
    match pageStep today p with
    | .stop => .ok []
    | .raiseVE => .raise
    | .cont new =>
      match walkSuffix today rest with
      | .ok more => .ok (new ++ more)
      | .raise => .raise

/-- Lines 44-54: the target date derived from the page fetched first (the
base url, i.e. offset 0).  `find_all('h3', string=regex)` keeps the `h3`
strings the regex matches; no match → `return papers` (empty);
`re.search` on the first kept header (cannot fail, but the code checks);
then `strptime(group(1).strip(), ...)`, whose `ValueError` propagates. -/
def firstPageDate (p : ListingPage) : PyResult (Option PyDate) :=
  match p.h3s.filter (fun s => (reSearchDate s).isSome) with
  | [] => .ok none
  | h :: _ =>
    match reSearchDate h with
    | none => .ok none
    | some m =>
      match pyStrptimeDate (pyStrip m) with
      | none => .raise
      | some d => .ok (some d)

/-- Lines 32-93, `ArxivAssessor.get_daily_papers`, over the pages served at
offsets 0, 25, 50, ... (the initial fetch of the base url is the page at
offset 0, which the loop then re-fetches as `?skip=0`). -/
def get_daily_papers (pages : List ListingPage) : PyResult (List Paper) :=
  match firstPageDate (pages.headD emptyPage) with
  | .raise => .raise
  | .ok none => .ok []
  | .ok (some today) => walkSuffix today pages

/-- The chat messages built in `summarize_text` (lines 129-135). -/
structure ChatMessage where
  role : List Char
  content : List Char
deriving DecidableEq, Repr

/-- The fixed system instruction, line 132. -/
def summarizerSystemPrompt : List Char :=
  ("You are a scientific paper summarizer. Create a very concise summary " ++
   "(5 sentences or less) of the paper text provided. Focus on the main " ++
   "accomplishments and findings.").toList

/-- Lines 129-135: the message pair submitted to the provider; the user
content is the argument text verbatim. -/
def summarize_text_messages (text : List Char) : List ChatMessage :=
  [{ role := "system".toList, content := summarizerSystemPrompt },
   { role := "user".toList, content := text }]

/-- Line 122 composed with `summarize_text`: the messages the LLM call
receives when `summarize_pdf` has extracted `extracted`; the forwarded user
content is `text[:1024]`. -/
def summarize_pdf_llm_messages (extracted : List Char) : List ChatMessage :=
  summarize_text_messages (extracted.take 1024)

/-- Outcome of one `temp_pdf.unlink()` call: success, or `PermissionError`
(the only exception the code catches; the file then still exists). -/
inductive UnlinkRes where
  | ok
  | permErr
deriving DecidableEq, Repr

/-- Outcome of the PyPDF2 extraction in the `try` block (lines 104-110). -/
inductive ExtractRes where
  | ok (text : List Char)
  | raise
deriving DecidableEq, Repr

/-- Observable effects of the `finally` block (lines 111-119). -/
structure CleanupTrace where
  removed : Bool
  unlinkCalls : Nat
  slept : Bool
deriving DecidableEq, Repr

/-- How `summarize_pdf` terminates. -/
inductive SummarizeOutcome where
  | returned (forwarded : List Char)
  | raisedExtract
  | raisedPermission
deriving DecidableEq, Repr

/-- Lines 111-119, the `finally` block: `temp_pdf.unlink()`; on
`PermissionError`, `time.sleep(0.1)` then `temp_pdf.unlink()` again, this
second call unguarded.  Returns the trace and whether a `PermissionError`
propagates out of the block. -/
def runFinally (u1 u2 : UnlinkRes) : CleanupTrace × Bool :=
  match u1 with
  | .ok => ({ removed := true, unlinkCalls := 1, slept := false }, false)
  | .permErr =>
    match u2 with
    | .ok => ({ removed := true, unlinkCalls := 2, slept := true }, false)
    | .permErr => ({ removed := false, unlinkCalls := 2, slept := true }, true)

/-- Lines 99-123, `summarize_pdf` after the download, with the extraction
outcome and the two possible unlink outcomes as parameters: the `finally`
block always runs; an exception escaping it takes precedence; otherwise an
extraction error propagates, and on success `summarize_text(text[:1024])`
is reached. -/
def summarize_pdf_run (ext : ExtractRes) (u1 u2 : UnlinkRes) :
    CleanupTrace × SummarizeOutcome :=
  let (tr, permProp) := runFinally u1 u2
  if permProp then (tr, .raisedPermission)
  else
    match ext with
    | .ok t => (tr, .returned (t.take 1024))
    | .raise => (tr, .raisedExtract)

/-- Lines 202-208 of `main`, the word-wrap loop, with explicit fuel (the
loop itself has no bound; `none` means the fuel ran out before the loop
finished, and `wrapLoopF_isSome` below shows fuel `|summary| + 1` always
suffices).  One iteration, while `len(remaining) > 150`: `split_index =
remaining[:150].rindex(' ')` — raising `ValueError` when the window has no
space — then the line `remaining[:split_index]` is written and `remaining`
becomes `remaining[split_index+1:]`.  After the loop the final `remaining`
is written as the last line. -/
def wrapLoopF : Nat → List Char → Option (PyResult (List (List Char)))
  | 0, _ => none
  | fuel + 1, remaining =>
    if 150 < remaining.length then
      match pyRindex ' ' (remaining.take 150) with
      | none => some .raise
      | some i =>
        match wrapLoopF fuel (remaining.drop (i + 1)) with
        | none => none
        | some .raise => some .raise
        | some (.ok lines) => some (.ok (remaining.take i :: lines))
    else some (.ok [remaining])

/-- The wrap loop run to completion (fuel `|summary| + 1`, sufficient by
`wrapLoopF_isSome`): the list of lines written (the last entry is the final
`f.write(remaining)`), or `raise` for the propagating `ValueError`. -/
def wrapSummary (summary : List Char) : PyResult (List (List Char)) :=
  (wrapLoopF (summary.length + 1) summary).getD .raise

/-- Joining written lines back with a single space in place of each
inserted newline (the reading of the wrap output used by C10). -/
def joinWithSpace : List (List Char) → List Char
  | [] => []
  | [x] => x
  | x :: xs => x ++ ' ' :: joinWithSpace xs

/-! ## Helper lemmas about the walker -/

theorem find?_eq_head?_filter (f : α → Bool) (l : List α) :
    l.find? f = (l.filter f).head? := by
  induction l with
  | nil => rfl
  | cons a t ih =>
    rw [List.find?_cons, List.filter_cons]
    cases h : f a with
    | true => rfl
    | false => simp only [List.head?]; exact ih ▸ rfl

/-- The first-page target computation (lines 44-54) classifies the first
page exactly as `headerInfo` does, `find_all(...)[0]` agreeing with
`find(...)`. -/
theorem firstPageDate_headerInfo (p : ListingPage) :
    firstPageDate p =
      match headerInfo p with
      | .absent => .ok none
      | .malformed => .raise
      | .parsed d => .ok (some d) := by
  unfold firstPageDate headerInfo
  rw [find?_eq_head?_filter]
  cases hf : p.h3s.filter (fun s => (reSearchDate s).isSome) with
  | nil => rfl
  | cons h t =>
    cases hr : reSearchDate h with
    | none => simp [hr]
    | some m => cases hp : pyStrptimeDate (pyStrip m) <;> simp [hr, hp]

theorem pagePapersStep_cont (p : ListingPage) (h : pagePapers p ≠ []) :
    pagePapersStep p = .cont (pagePapers p) := by
  unfold pagePapersStep
  unfold pagePapers at h ⊢
  cases hdl : p.dl with
  | none => rw [hdl] at h; exact absurd rfl h
  | some dts =>
    rw [hdl] at h
    have h' : extractPapers dts ≠ [] := h
    show (if extractPapers dts = [] then StepRes.stop
          else StepRes.cont (extractPapers dts)) = StepRes.cont (extractPapers dts)
    rw [if_neg h']

theorem pagePapersStep_stop (p : ListingPage) (h : pagePapers p = []) :
    pagePapersStep p = .stop := by
  unfold pagePapersStep
  unfold pagePapers at h
  cases hdl : p.dl with
  | none => rfl
  | some dts =>
    rw [hdl] at h
    have h' : extractPapers dts = [] := h
    show (if extractPapers dts = [] then StepRes.stop
          else StepRes.cont (extractPapers dts)) = StepRes.stop
    rw [if_pos h']

theorem pageStep_parsed_eq (today : PyDate) (p : ListingPage)
    (h : headerInfo p = .parsed today) : pageStep today p = pagePapersStep p := by
  simp [pageStep, h]

theorem pageStep_parsed_ne (today d' : PyDate) (p : ListingPage)
    (h : headerInfo p = .parsed d') (hne : d' ≠ today) : pageStep today p = .stop := by
  simp [pageStep, h, hne]

theorem pageStep_absent (today : PyDate) (p : ListingPage)
    (h : headerInfo p = .absent) : pageStep today p = pagePapersStep p := by
  simp [pageStep, h]

theorem pageStep_malformed (today : PyDate) (p : ListingPage)
    (h : headerInfo p = .malformed) : pageStep today p = .raiseVE := by
  simp [pageStep, h]

/-- A fetch past the end of the provided pages stops the loop (no `dl`). -/
theorem pageStep_emptyPage (today : PyDate) : pageStep today emptyPage = .stop := rfl

theorem walkSuffix_cons_cont (today : PyDate) (p : ListingPage)
    (rest : List ListingPage) (new : List Paper)
    (h : pageStep today p = .cont new) :
    walkSuffix today (p :: rest) =
      match walkSuffix today rest with
      | .ok more => .ok (new ++ more)
      | .raise => .raise := by
  simp [walkSuffix, h]

theorem walkSuffix_cons_stop (today : PyDate) (p : ListingPage)
    (rest : List ListingPage) (h : pageStep today p = .stop) :
    walkSuffix today (p :: rest) = .ok [] := by
  simp [walkSuffix, h]

theorem walkSuffix_cons_raise (today : PyDate) (p : ListingPage)
    (rest : List ListingPage) (h : pageStep today p = .raiseVE) :
    walkSuffix today (p :: rest) = .raise := by
  simp [walkSuffix, h]

/-- A run of pages that all continue contributes each page's papers in
order. -/
theorem walkSuffix_all_cont (today : PyDate) (l : List ListingPage)
    (h : ∀ p ∈ l, pageStep today p = .cont (pagePapers p)) :
    walkSuffix today l = .ok ((l.map pagePapers).flatten) := by
  induction l with
  | nil => rfl
  | cons p t ih =>
    rw [walkSuffix_cons_cont today p t (pagePapers p) (h p (by simp))]
    rw [ih (fun q hq => h q (by simp [hq]))]
    simp

/-- Continuing pages followed by a stopping page: the stopping page and
everything after it contribute nothing. -/
theorem walkSuffix_append_stop (today : PyDate) (l : List ListingPage)
    (q : ListingPage) (rest : List ListingPage)
    (hl : ∀ p ∈ l, pageStep today p = .cont (pagePapers p))
    (hq : pageStep today q = .stop) :
    walkSuffix today (l ++ q :: rest) = .ok ((l.map pagePapers).flatten) := by
  induction l with
  | nil => simpa using walkSuffix_cons_stop today q rest hq
  | cons p t ih =>
    rw [List.cons_append,
        walkSuffix_cons_cont today p (t ++ q :: rest) (pagePapers p) (hl p (by simp))]
    rw [ih (fun r hr => hl r (by simp [hr]))]
    simp

theorem get_daily_papers_eq_walk (pages : List ListingPage) (today : PyDate)
    (hfirst : firstPageDate (pages.headD emptyPage) = .ok (some today)) :
    get_daily_papers pages = walkSuffix today pages := by
  unfold get_daily_papers
  rw [hfirst]

/-! ## Concrete pages used by witnesses and counterexamples -/

def jan1 : PyDate := ⟨2024, 1, 1⟩

def jan2 : PyDate := ⟨2024, 1, 2⟩

def hdrJan1 : List Char := "Mon, 01 Jan 2024".toList

def hdrJan2 : List Char := "Tue, 02 Jan 2024".toList

def pageOne : ListingPage := ⟨[hdrJan1], some [some "/pdf/1111.0001".toList]⟩

def pageTwo : ListingPage := ⟨[hdrJan1], some [some "/pdf/1111.0002".toList]⟩

def pageEmptyDl : ListingPage := ⟨[hdrJan1], some []⟩

def pageNextDay : ListingPage := ⟨[hdrJan2], some [some "/pdf/1111.0003".toList]⟩

def malformedHeader : List Char := "Xxx, 12 Abc 2024".toList

def pageMalformed : ListingPage := ⟨[malformedHeader], some [some "/pdf/2222.0001".toList]⟩

def pageNoMatch : ListingPage := ⟨["hello world".toList], some [some "/pdf/3333.0001".toList]⟩

/-! ## C1 -/

/-- C1, counterexample to the claim as stated: in the three-page sequence
`[pageOne, pageEmptyDl, pageTwo]` every page's date header parses to the
first page's date (2024-01-01), yet `get_daily_papers` does NOT return the
concatenation of all parsed papers — the middle page parses zero papers, so
the loop stops there (line 86, `if not new_papers: break`) and the third
page's paper is dropped. -/
theorem c1_counterexample :
    headerInfo pageOne = .parsed jan1
    ∧ headerInfo pageEmptyDl = .parsed jan1
    ∧ headerInfo pageTwo = .parsed jan1
    ∧ pagePapers pageTwo ≠ []
    ∧ get_daily_papers [pageOne, pageEmptyDl, pageTwo]
        ≠ .ok (([pageOne, pageEmptyDl, pageTwo].map pagePapers).flatten)
    ∧ get_daily_papers [pageOne, pageEmptyDl, pageTwo] = .ok (pagePapers pageOne) := by
  decide

/-- C1 (amended): for a sequence of pages whose date headers all parse to
the first page's date AND each of which yields at least one parsed paper,
`get_daily_papers` returns the concatenation of all pages' parsed papers in
page order; and when pages `l` (same date, nonempty) are followed by a page
`q` whose header parses to a different date, the walker stops at `q`: the
result is exactly the papers of `l`, with none of `q`'s papers included. -/
theorem c1_walker_concat_and_boundary (pages : List ListingPage) (today : PyDate)
    (hfirst : firstPageDate (pages.headD emptyPage) = .ok (some today)) :
    ((∀ p ∈ pages, headerInfo p = .parsed today ∧ pagePapers p ≠ []) →
      get_daily_papers pages = .ok ((pages.map pagePapers).flatten))
    ∧ (∀ (l : List ListingPage) (q : ListingPage) (rest : List ListingPage) (d' : PyDate),
        pages = l ++ q :: rest →
        (∀ p ∈ l, headerInfo p = .parsed today ∧ pagePapers p ≠ []) →
        headerInfo q = .parsed d' → d' ≠ today →
        get_daily_papers pages = .ok ((l.map pagePapers).flatten)) := by
  have hcont : ∀ p, headerInfo p = .parsed today → pagePapers p ≠ [] →
      pageStep today p = .cont (pagePapers p) := fun p h1 h2 => by
    rw [pageStep_parsed_eq today p h1, pagePapersStep_cont p h2]
  refine ⟨fun hall => ?_, fun l q rest d' hpg hl hq hne => ?_⟩
  · rw [get_daily_papers_eq_walk pages today hfirst]
    exact walkSuffix_all_cont today pages
      (fun p hp => hcont p (hall p hp).1 (hall p hp).2)
  · rw [get_daily_papers_eq_walk pages today hfirst, hpg]
    exact walkSuffix_append_stop today l q rest
      (fun p hp => hcont p (hl p hp).1 (hl p hp).2)
      (pageStep_parsed_ne today d' q hq hne)

/-- Witness for C1 (amended): a two-page same-date run returns both pages'
papers in order; a run whose second page is dated one day later returns
only the first page's papers. -/
theorem c1_walker_witness :
    get_daily_papers [pageOne, pageTwo] = .ok (([pageOne, pageTwo].map pagePapers).flatten)
    ∧ get_daily_papers [pageOne, pageNextDay] = .ok (([pageOne].map pagePapers).flatten) := by
  constructor
  · exact (c1_walker_concat_and_boundary [pageOne, pageTwo] jan1 (by decide)).1 (by decide)
  · exact (c1_walker_concat_and_boundary [pageOne, pageNextDay] jan1 (by decide)).2
      [pageOne] pageNextDay [] jan2 rfl (by decide) (by decide) (by decide)

/-! ## C2 -/

/-- C2: when the first page has a valid date header (target `today`), the
pages before `q` keep the walker going, and `q` has no date header and
yields zero parsed papers (its `dl` missing or its entries linkless), the
run terminates normally at `q` with exactly the papers accumulated so far —
no error is raised. -/
theorem c2_benign_termination (l : List ListingPage) (q : ListingPage)
    (rest : List ListingPage) (today : PyDate)
    (hfirst : firstPageDate ((l ++ q :: rest).headD emptyPage) = .ok (some today))
    (hcont : ∀ p ∈ l, pageStep today p = .cont (pagePapers p))
    (habsent : headerInfo q = .absent)
    (hzero : pagePapers q = []) :
    get_daily_papers (l ++ q :: rest) = .ok ((l.map pagePapers).flatten) := by
  rw [get_daily_papers_eq_walk _ today hfirst]
  exact walkSuffix_append_stop today l q rest hcont
    (by rw [pageStep_absent today q habsent]; exact pagePapersStep_stop q hzero)

/-- Witness for C2: page 1 is a valid dated page with one paper, page 2 has
an `h3` that matches no date and no papers list; the run returns page 1's
papers. -/
theorem c2_benign_termination_witness :
    get_daily_papers [pageOne, ⟨["no date in this header".toList], none⟩]
      = .ok (([pageOne].map pagePapers).flatten) :=
  c2_benign_termination [pageOne] ⟨["no date in this header".toList], none⟩ [] jan1
    (by decide) (by decide) (by decide) (by decide)

/-! ## C3 -/

/-- C3, counterexample to the claim as stated: `malformedHeader` matches the
date-like pattern but `strptime` cannot parse it, and on a first page
carrying it `get_daily_papers` raises `ValueError` (line 54/66) instead of
treating the page as headerless and returning the empty sequence. -/
theorem c3_counterexample :
    (reSearchDate malformedHeader).isSome = true
    ∧ pyStrptimeDate (pyStrip ((reSearchDate malformedHeader).getD [])) = none
    ∧ headerInfo pageMalformed = .malformed
    ∧ get_daily_papers [pageMalformed] = .raise
    ∧ get_daily_papers [pageMalformed] ≠ .ok [] := by
  decide

/-- C3 (amended): a page none of whose `h3` strings match the date-like
pattern is treated as having no header and proceeds to paper parsing
(continue); but a header that matches the pattern and fails to parse as a
calendar date raises `ValueError`, which propagates — in the loop and, on
the first page, out of `get_daily_papers`; a first page with no matching
header yields the empty sequence. -/
theorem c3_malformed_header_behavior (today : PyDate) (p : ListingPage)
    (rest pages : List ListingPage) :
    (headerInfo p = .absent → pageStep today p = pagePapersStep p)
    ∧ (headerInfo p = .malformed → walkSuffix today (p :: rest) = .raise)
    ∧ (headerInfo (pages.headD emptyPage) = .malformed → get_daily_papers pages = .raise)
    ∧ (headerInfo (pages.headD emptyPage) = .absent → get_daily_papers pages = .ok []) := by
  refine ⟨fun h => pageStep_absent today p h, fun h => ?_, fun h => ?_, fun h => ?_⟩
  · exact walkSuffix_cons_raise today p rest (pageStep_malformed today p h)
  · unfold get_daily_papers
    rw [firstPageDate_headerInfo, h]
  · unfold get_daily_papers
    rw [firstPageDate_headerInfo, h]

/-- Witness for C3 (amended): a non-matching `h3` leaves the step equal to
the pure paper step; the malformed header raises both inside the loop and
from `get_daily_papers`; the non-matching first page returns `[]`. -/
theorem c3_malformed_header_witness :
    pageStep jan1 pageNoMatch = pagePapersStep pageNoMatch
    ∧ walkSuffix jan1 [pageMalformed] = .raise
    ∧ get_daily_papers [pageMalformed] = .raise
    ∧ get_daily_papers [⟨["hello world".toList], none⟩] = .ok [] :=
  ⟨(c3_malformed_header_behavior jan1 pageNoMatch [] []).1 (by decide),
   (c3_malformed_header_behavior jan1 pageMalformed [] []).2.1 (by decide),
   (c3_malformed_header_behavior jan1 pageMalformed [] [pageMalformed]).2.2.1 (by decide),
   (c3_malformed_header_behavior jan1 pageNoMatch []
      [⟨["hello world".toList], none⟩]).2.2.2 (by decide)⟩

/-! ## C4 -/

/-- C4: the target date is assigned exactly once, from the first page
fetched: whenever the first-page computation (lines 44-54) yields `today`,
the whole run equals `walkSuffix today pages`, a loop in which `today` is
a fixed parameter; and each continuing iteration hands the SAME `today`
unchanged to the next iteration — it is never reassigned or recomputed. -/
theorem c4_target_fixed_once (pages : List ListingPage) (today : PyDate)
    (hfirst : firstPageDate (pages.headD emptyPage) = .ok (some today)) :
    get_daily_papers pages = walkSuffix today pages
    ∧ ∀ (p : ListingPage) (rest : List ListingPage) (new : List Paper),
        pageStep today p = .cont new →
        walkSuffix today (p :: rest) =
          match walkSuffix today rest with
          | .ok more => .ok (new ++ more)
          | .raise => .raise :=
  ⟨get_daily_papers_eq_walk pages today hfirst,
   fun p rest new h => walkSuffix_cons_cont today p rest new h⟩

/-- Witness for C4 at a concrete two-page run. -/
theorem c4_target_fixed_once_witness :
    get_daily_papers [pageOne, pageTwo] = walkSuffix jan1 [pageOne, pageTwo]
    ∧ walkSuffix jan1 [pageOne, pageTwo] =
        match walkSuffix jan1 [pageTwo] with
        | .ok more => .ok (pagePapers pageOne ++ more)
        | .raise => .raise := by
  have h := c4_target_fixed_once [pageOne, pageTwo] jan1 (by decide)
  exact ⟨h.1, h.2 pageOne [pageTwo] (pagePapers pageOne) (by decide)⟩

/-! ## C5 -/

/-- C5: a listing entry whose PDF link has href `/pdf/2401.12345` yields the
record with identifier `2401.12345` — the final path segment of the href —
and pdf_url `https://arxiv.org/pdf/2401.12345` — the href prefixed with the
arXiv origin — wherever the entry occurs in the page. -/
theorem c5_paper_extraction (rest : List (Option (List Char))) :
    extractPapers (some ("/pdf/2401.12345".toList) :: rest)
      = { pdf_url := "https://arxiv.org/pdf/2401.12345".toList
          paper_id := "2401.12345".toList : Paper } :: extractPapers rest := rfl

/-! ## C6 -/

/-- C6, counterexample to the claim as stated: `find_next` scans forward in
document order, so a `dt` without its own Download-PDF link resolves to the
NEXT entry's link: a two-entry page whose first entry is linkless produces
the second entry's record twice — the accumulated list has duplicates. -/
theorem c6_counterexample :
    extractPapers [none, some ("/pdf/2401.00001".toList)]
      = [mkPaper ("/pdf/2401.00001".toList), mkPaper ("/pdf/2401.00001".toList)]
    ∧ ¬ (extractPapers [none, some ("/pdf/2401.00001".toList)]).Nodup
    ∧ get_daily_papers [⟨[hdrJan1], some [none, some ("/pdf/2401.00001".toList)]⟩]
        = .ok [mkPaper ("/pdf/2401.00001".toList), mkPaper ("/pdf/2401.00001".toList)] := by
  decide

/-- C6 (amended): an entry with no Download-PDF link anywhere at or after
its position contributes no record (skipped silently); but an entry without
its own link whose forward search finds `h` contributes `mkPaper h` — a
duplicate of the record of the entry owning `h`. -/
theorem c6_find_next_borrowing (rest : List (Option (List Char))) :
    (List.findSome? id rest = none →
      extractPapers (none :: rest) = extractPapers rest)
    ∧ (∀ h, List.findSome? id rest = some h →
      extractPapers (none :: rest) = mkPaper h :: extractPapers rest) := by
  have key : extractPapers (none :: rest)
      = match List.findSome? id rest with
        | some href => mkPaper href :: extractPapers rest
        | none => extractPapers rest := rfl
  constructor
  · intro h; rw [key, h]
  · intro href h; rw [key, h]

/-- Witness for C6 (amended) at concrete entry lists. -/
theorem c6_find_next_borrowing_witness :
    extractPapers [none] = extractPapers ([] : List (Option (List Char)))
    ∧ extractPapers [none, some ("/pdf/9.1".toList)]
        = mkPaper ("/pdf/9.1".toList) :: extractPapers [some ("/pdf/9.1".toList)] :=
  ⟨(c6_find_next_borrowing []).1 (by decide),
   (c6_find_next_borrowing [some ("/pdf/9.1".toList)]).2 ("/pdf/9.1".toList) (by decide)⟩

/-! ## C7 -/

/-- C7: the user message `summarize_pdf` submits to the LLM call is the
extracted text unmodified when it has at most 1024 characters, and exactly
its first 1024 characters otherwise. -/
theorem c7_truncation_budget (t : List Char) :
    (t.length ≤ 1024 →
      summarize_pdf_llm_messages t
        = [⟨"system".toList, summarizerSystemPrompt⟩, ⟨"user".toList, t⟩])
    ∧ (1024 < t.length →
      summarize_pdf_llm_messages t
        = [⟨"system".toList, summarizerSystemPrompt⟩, ⟨"user".toList, t.take 1024⟩]
      ∧ (t.take 1024).length = 1024) := by
  constructor
  · intro h
    unfold summarize_pdf_llm_messages summarize_text_messages
    rw [List.take_of_length_le h]
  · intro h
    refine ⟨rfl, ?_⟩
    rw [List.length_take]
    omega

/-- Witness for C7: a 3-character text passes through unchanged; a
1025-character text is cut to exactly 1024 characters. -/
theorem c7_truncation_budget_witness :
    summarize_pdf_llm_messages "abc".toList
      = [⟨"system".toList, summarizerSystemPrompt⟩, ⟨"user".toList, "abc".toList⟩]
    ∧ ((List.replicate 1025 'a').take 1024).length = 1024 :=
  ⟨(c7_truncation_budget "abc".toList).1 (by decide),
   ((c7_truncation_budget (List.replicate 1025 'a')).2
      (by rw [List.length_replicate]; omega)).2⟩

/-! ## C9 -/

/-- C9: the temporary PDF file is removed whatever the extraction outcome
(the `finally` block runs on success and on error alike; the cleanup trace
does not depend on the extraction result), provided the lock is transient
(some unlink succeeds); a first-unlink `PermissionError` is retried exactly
once, after the sleep; at most two unlink calls ever happen. -/
theorem c9_cleanup_retry (ext : ExtractRes) (u1 u2 : UnlinkRes)
    (htrans : u1 = .ok ∨ u2 = .ok) :
    (summarize_pdf_run ext u1 u2).1.removed = true
    ∧ (summarize_pdf_run ext u1 u2).1.unlinkCalls ≤ 2
    ∧ (u1 = .permErr → (summarize_pdf_run ext u1 u2).1.slept = true
        ∧ (summarize_pdf_run ext u1 u2).1.unlinkCalls = 2)
    ∧ (summarize_pdf_run ext u1 u2).1 = (summarize_pdf_run .raise u1 u2).1 := by
  cases u1 <;> cases u2 <;> cases ext <;> simp_all [summarize_pdf_run, runFinally]

/-- Witness for C9: extraction raises and the first unlink hits a transient
`PermissionError`; the file is still removed, after a sleep and a second
unlink call. -/
theorem c9_cleanup_retry_witness :
    (summarize_pdf_run .raise .permErr .ok).1.removed = true
    ∧ (summarize_pdf_run .raise .permErr .ok).1.slept = true
    ∧ (summarize_pdf_run .raise .permErr .ok).1.unlinkCalls = 2 := by
  have h := c9_cleanup_retry .raise .permErr .ok (Or.inr rfl)
  exact ⟨h.1, (h.2.2.1 rfl).1, (h.2.2.1 rfl).2⟩

/-! ## Wrap-loop lemmas (C8, C10) -/

/-- Fuel `|remaining| + 1` always suffices: every iteration drops at least
one character (`split_index + 1 ≥ 1`), so the loop terminates on every
input — there is no infinite loop. -/
theorem wrapLoopF_isSome (fuel : Nat) :
    ∀ l : List Char, l.length < fuel → (wrapLoopF fuel l).isSome = true := by
  induction fuel with
  | zero => intro l h; exact absurd h (Nat.not_lt_zero _)
  | succ n ih =>
    intro l h
    unfold wrapLoopF
    by_cases h150 : 150 < l.length
    · rw [if_pos h150]
      split
      · rfl
      · rename_i i hr
        have hlt : (l.drop (i + 1)).length < n := by
          rw [List.length_drop]; omega
        have hs := ih (l.drop (i + 1)) hlt
        split
        · rename_i hw; rw [hw] at hs; simp at hs
        · rfl
        · rfl
    · rw [if_neg h150]; rfl

/-- A completed wrap produces at least one line (the final
`f.write(remaining)`). -/
theorem wrapLoopF_ok_ne_nil (fuel : Nat) (l : List Char) (lines : List (List Char))
    (h : wrapLoopF fuel l = some (.ok lines)) : lines ≠ [] := by
  cases fuel with
  | zero => simp [wrapLoopF] at h
  | succ n =>
    unfold wrapLoopF at h
    by_cases h150 : 150 < l.length
    · rw [if_pos h150] at h
      split at h
      · simp at h
      · split at h
        · simp at h
        · simp at h
        · simp at h; rw [← h]; simp
    · rw [if_neg h150] at h
      simp at h; rw [← h]; simp

/-- The index `pyRindex` returns points at an occurrence of the character. -/
theorem pyRindex_getElem? (c : Char) :
    ∀ (l : List Char) (i : Nat), pyRindex c l = some i → l[i]? = some c := by
  intro l
  induction l with
  | nil => intro i h; simp [pyRindex] at h
  | cons a t ih =>
    intro i h
    unfold pyRindex at h
    cases hr : pyRindex c t with
    | some j =>
      rw [hr] at h
      injection h with h'
      subst h'
      simpa using ih j hr
    | none =>
      rw [hr] at h
      by_cases hac : a = c
      · rw [if_pos hac] at h
        injection h with h'
        subst h'
        simp [hac]
      · rw [if_neg hac] at h; cases h

/-- Splicing the found character back: `l[:i] + c + l[i+1:] = l` when
`l[i] = c`. -/
theorem take_elem_drop (c : Char) :
    ∀ (i : Nat) (l : List Char), l[i]? = some c →
      l.take i ++ c :: l.drop (i + 1) = l := by
  intro i
  induction i with
  | zero =>
    intro l h
    cases l with
    | nil => simp at h
    | cons a t =>
      simp only [List.getElem?_cons_zero, Option.some_inj] at h
      subst h
      simp
  | succ n ih =>
    intro l h
    cases l with
    | nil => simp at h
    | cons a t =>
      simp only [List.getElem?_cons_succ] at h
      simp only [List.take_succ_cons, List.drop_succ_cons, List.cons_append,
        List.cons_inj_right]
      exact ih t h

/-- Each loop iteration writes `remaining[:i]` and continues with
`remaining[i+1:]` where `remaining[i]` is the space `rindex` found, so the
written lines, rejoined with one space per break, reconstruct the input. -/
theorem wrapLoopF_join (fuel : Nat) :
    ∀ (l : List Char) (lines : List (List Char)),
      wrapLoopF fuel l = some (.ok lines) → joinWithSpace lines = l := by
  induction fuel with
  | zero => intro l lines h; simp [wrapLoopF] at h
  | succ n ih =>
    intro l lines h
    unfold wrapLoopF at h
    by_cases h150 : 150 < l.length
    · rw [if_pos h150] at h
      split at h
      · simp at h
      · rename_i i hr
        split at h
        · simp at h
        · simp at h
        · rename_i rest hw
          simp at h
          subst h
          have hrest := ih (l.drop (i + 1)) rest hw
          have hne : rest ≠ [] := wrapLoopF_ok_ne_nil n (l.drop (i + 1)) rest hw
          have h1 := pyRindex_getElem? ' ' (l.take 150) i hr
          have hi : i < 150 := by
            have hlen := (List.getElem?_eq_some.mp h1).1
            rw [List.length_take] at hlen
            omega
          have hsp : l[i]? = some ' ' := by
            rw [← List.getElem?_take_of_lt hi (l := l)]
            exact h1
          cases rest with
          | nil => exact absurd rfl hne
          | cons b bs =>
            show List.take i l ++ ' ' :: joinWithSpace (b :: bs) = l
            rw [hrest]
            exact take_elem_drop ' ' i l hsp
    · rw [if_neg h150] at h
      simp at h
      subst h
      rfl

/-! ## C8 -/

set_option maxRecDepth 4000 in
/-- C8, counterexample to the claim as stated: a 300-character summary with
no space anywhere — in particular none before column 150 — makes
`remaining[:150].rindex(' ')` raise `ValueError` on the first iteration
(there is no fallback in the code); the loop did not run out of fuel, so
this is a genuine raise, not non-termination. -/
theorem c8_counterexample :
    (wrapLoopF 301 (List.replicate 300 'x')).isSome = true
    ∧ wrapSummary (List.replicate 300 'x') = .raise := by
  decide

/-- C8 (amended): the wrap loop always terminates — fuel `|summary| + 1`
suffices on every summary, so there is no infinite loop — but whenever more
than 150 characters remain and the first 150 of them contain no space,
`str.rindex` raises `ValueError`, which propagates; there is no graceful
fallback. -/
theorem c8_wrap_terminates_or_raises :
    (∀ l : List Char, (wrapLoopF (l.length + 1) l).isSome = true)
    ∧ (∀ l : List Char, 150 < l.length → pyRindex ' ' (l.take 150) = none →
        wrapSummary l = .raise) := by
  constructor
  · intro l
    exact wrapLoopF_isSome (l.length + 1) l (Nat.lt_succ_self _)
  · intro l h150 hnone
    unfold wrapSummary wrapLoopF
    rw [if_pos h150, hnone]
    rfl

set_option maxRecDepth 4000 in
/-- Witness for C8 (amended): termination on a short summary; the raise on
a 200-character spaceless summary. -/
theorem c8_wrap_witness :
    (wrapLoopF ("hello".toList.length + 1) "hello".toList).isSome = true
    ∧ wrapSummary (List.replicate 200 'x') = .raise :=
  ⟨c8_wrap_terminates_or_raises.1 "hello".toList,
   c8_wrap_terminates_or_raises.2 (List.replicate 200 'x') (by decide) (by decide)⟩

/-! ## C10 -/

/-- C10: whenever the wrap loop completes without error on a summary,
joining the written lines back together with a single space in place of
each inserted newline reconstructs the original summary exactly — each
break consumes exactly the one space `rindex` found and nothing else. -/
theorem c10_join_roundtrip (l : List Char) (lines : List (List Char))
    (h : wrapSummary l = .ok lines) : joinWithSpace lines = l := by
  unfold wrapSummary at h
  cases hw : wrapLoopF (l.length + 1) l with
  | none => rw [hw] at h; simp at h
  | some r =>
    rw [hw] at h
    cases r with
    | raise => simp at h
    | ok lines' =>
      simp at h
      subst h
      exact wrapLoopF_join (l.length + 1) l lines' hw

set_option maxRecDepth 4000 in
/-- Witness for C10: a 160-character summary with one space at position 100
wraps into two lines which rejoin to the original. -/
theorem c10_join_roundtrip_witness :
    joinWithSpace [List.replicate 100 'a', List.replicate 59 'b']
      = List.replicate 100 'a' ++ ' ' :: List.replicate 59 'b' :=
  c10_join_roundtrip (List.replicate 100 'a' ++ ' ' :: List.replicate 59 'b')
    [List.replicate 100 'a', List.replicate 59 'b'] (by decide)
